import Mathlib

/-!
Verification of the SERA curation and pipeline core.

This file gives a shallow embedding, in Lean 4, of the parts of the SERA
repository that the specification describes:

* the stage pipeline controller (sera/main.py, class Experiment),
* the trajectory filter tool (sera/datagen/data/filter.py), including the
  unified diff analyzer analyze_diff,
* the dataset scaling tool (sera/datagen/data/scale.py).

Conventions of the embedding:

* Python strings that are only compared for equality stay Lean String;
  strings that are scanned character by character (diff lines, instance
  ids, substring searches) are handled through their character lists.
* Python exceptions are modelled with an explicit error type PyError and
  Except; a Python function that can raise returns Except PyError.
* External collaborators (the tokenizer, the filter_messages truncation
  collaborator, the random shuffles) are parameters of the definitions:
  a shuffle becomes an arbitrary order parameter, so every theorem below
  quantifies over all possible shuffle outcomes.
* Python integer division // on naturals is Nat division; Python float
  division / on integer counts is exact rational division, modelled in
  the rationals.
-/

namespace Sera

/-- One chat message of a trajectory: a role and a content string. -/
structure Message where
  role : String
  content : String
deriving DecidableEq, Repr

/-- One trajectory record of a JSONL dataset: the instance id and the
ordered message list. -/
structure Traj where
  instance_id : String
  messages : List Message
deriving DecidableEq, Repr

/-- The Python exceptions that the embedded code can raise. -/
inductive PyError where
  /-- TypeError, raised e.g. by calling a two-argument function with one
  argument. -/
  | typeError
  /-- ZeroDivisionError. -/
  | zeroDivision
  /-- FileExistsError, raised by the output collision checks. -/
  | fileExists
  /-- ValueError, raised for an unknown pipeline stage name. -/
  | valueError
  /-- IndexError, raised by indexing into an empty list. -/
  | indexError
deriving DecidableEq, Repr

/-! ## Stage pipeline controller (sera/main.py)

Experiment.stage_map maps stage names to indices; Experiment.run validates
the name and calls _run_pipeline with the resolved index; _run_pipeline
always calls the five stage runners in order, each with the skip flag
computed from the requested index.  An invocation is modelled as the pair
of the stage name and the skip flag it received. -/

/-- The stage_map dictionary of class Experiment. -/
def stage_map : List (String × Int) :=
  [("pipeline", -1), ("generate", 0), ("distill_stage_one", 1),
   ("distill_stage_two", 2), ("eval", 3), ("postprocess", 4)]

/-- The five concrete stages with their indices, in the fixed order in
which _run_pipeline invokes them. -/
def concreteStages : List (String × Int) :=
  [("generate", 0), ("distill_stage_one", 1), ("distill_stage_two", 2),
   ("eval", 3), ("postprocess", 4)]

/-- Experiment._run_pipeline: the list of stage invocations, each stage
paired with the skip flag the source passes it
(skip = stage_idx > own position). -/
def run_pipeline (stage_idx : Int) : List (String × Bool) :=
  [("generate", decide (stage_idx > 0)),
   ("distill_stage_one", decide (stage_idx > 1)),
   ("distill_stage_two", decide (stage_idx > 2)),
   ("eval", decide (stage_idx > 3)),
   ("postprocess", decide (stage_idx > 4))]

/-- Experiment.run: validate the stage name against stage_map (ValueError
on an unknown name), then run the pipeline with the resolved index. -/
def Experiment_run (stage : String) : Except PyError (List (String × Bool)) :=
  match (stage_map.find? (fun p => p.1 = stage)).map Prod.snd with
  | none => .error .valueError
  | some idx => .ok (run_pipeline idx)

/-! ## Curation tool output phases

filter.py main, after computing the removal set, logs the flagged
percentage (a division by the loaded dataset size, which raises
ZeroDivisionError on an empty dataset), then checks the destination path
and raises FileExistsError before any write when it already exists.

scale.py main guards its whole output phase with `if scaled_ds:`: when the
selected result is empty, neither the existence check nor the write
happens and the function returns normally. -/

/-- Result of an output phase that ran to completion. -/
inductive WriteResult where
  /-- The destination file was written. -/
  | written
  /-- scale.py only: the selected result was empty, so the output phase
  was skipped entirely (no existence check, no write). -/
  | skippedEmpty
deriving DecidableEq, Repr

/-- Output phase of filter.py main (the percentage log line, then the
existence check, then the write). -/
def filterOutputPhase (loaded : List Traj) (destExists : Bool) :
    Except PyError WriteResult :=
  if loaded.isEmpty then .error .zeroDivision
  else if destExists then .error .fileExists
  else .ok .written

/-- Output phase of scale.py main: the existence check and the write are
reached only when the selected result is nonempty. -/
def scaleOutputPhase (scaled : List Traj) (destExists : Bool) :
    Except PyError WriteResult :=
  if !scaled.isEmpty then
    if destExists then .error .fileExists else .ok .written
  else .ok .skippedEmpty

/-! ## Claim C1 -/

/-- C1, counterexample.  The claim states that requesting stage eval does
not invoke postprocess at all.  In the source, _run_pipeline invokes
postprocess with skip = stage_idx > 4, so requesting eval (index 3)
invokes postprocess in full mode: the invocation ("postprocess", false)
is present in the run. -/
theorem c1_postprocess_invoked :
    Experiment_run "eval" =
      .ok [("generate", true), ("distill_stage_one", true),
           ("distill_stage_two", true), ("eval", false),
           ("postprocess", false)] ∧
    ("postprocess", false) ∈
      [("generate", true), ("distill_stage_one", true),
       ("distill_stage_two", true), ("eval", false),
       ("postprocess", false)] := by
  exact ⟨rfl, by decide⟩

/-- C1, amended.  For every requested stage index S, _run_pipeline invokes
every one of the five concrete stages exactly once, in order; a stage with
index k runs in skip mode exactly when k < S and in full mode otherwise.
In particular requesting eval (index 3) runs generate, distill_stage_one
and distill_stage_two in skip mode and runs both eval and postprocess in
full mode. -/
theorem c1_amended :
    (∀ S : Int, run_pipeline S =
      concreteStages.map (fun p => (p.1, decide (p.2 < S)))) ∧
    Experiment_run "eval" =
      .ok [("generate", true), ("distill_stage_one", true),
           ("distill_stage_two", true), ("eval", false),
           ("postprocess", false)] := by
  constructor
  · intro S
    simp only [run_pipeline, concreteStages, List.map]
  · rfl

/-! ## Claims C5 and C10 -/

/-- An example trajectory used by concrete instantiations below. -/
def exTraj : Traj := { instance_id := "inst_1", messages := [] }

/-- C5, counterexample.  The claim states that EVERY curation invocation
whose destination already exists raises the output collision error.  Two
concrete invocations refute it: a scale invocation whose selected result
is empty returns normally without ever checking the existing destination,
and a filter invocation on an empty loaded dataset raises
ZeroDivisionError (in the percentage log line) before the collision check
is reached. -/
theorem c5_counterexample :
    scaleOutputPhase [] true = .ok .skippedEmpty ∧
    scaleOutputPhase [] true ≠ .error .fileExists ∧
    filterOutputPhase [] true = .error .zeroDivision ∧
    filterOutputPhase [] true ≠ .error .fileExists := by
  refine ⟨rfl, fun h => Except.noConfusion h, rfl, fun h => ?_⟩
  injection h with h2
  exact PyError.noConfusion h2

/-- C5, amended.  For every filter invocation whose loaded dataset is
nonempty, and every scale invocation whose selected result is nonempty,
an already existing destination makes the output phase raise
FileExistsError, and no write is performed (the phase never returns
written). -/
theorem c5_amended (loaded scaled : List Traj)
    (hl : loaded ≠ []) (hs : scaled ≠ []) :
    filterOutputPhase loaded true = .error .fileExists ∧
    scaleOutputPhase scaled true = .error .fileExists := by
  constructor
  · simp [filterOutputPhase, List.isEmpty_iff, hl]
  · simp [scaleOutputPhase, List.isEmpty_iff, hs]

/-- C5, witness for the amended theorem at a concrete invocation. -/
theorem c5_witness :
    filterOutputPhase [exTraj] true = .error .fileExists ∧
    scaleOutputPhase [exTraj] true = .error .fileExists :=
  c5_amended [exTraj] [exTraj] (by decide) (by decide)

/-- C10.  A scale invocation whose selected result is empty skips the
whole output phase: it performs no destination existence check and no
write, and returns without error even when the destination exists.  The
theorem characterizes this: for every selected result and every state of
the destination, the output phase is skipped exactly when the selected
result is empty (in particular an existing destination never raises for
an empty result). -/
theorem c10_empty_scale_skips_output (scaled : List Traj) (destExists : Bool) :
    (scaleOutputPhase scaled destExists = .ok .skippedEmpty ↔ scaled = []) ∧
    (scaled = [] → scaleOutputPhase scaled destExists ≠ .error .fileExists) := by
  constructor
  · constructor
    · intro h
      by_cases hs : scaled = []
      · exact hs
      · exfalso
        simp [scaleOutputPhase, List.isEmpty_iff, hs] at h
        cases destExists <;> simp at h
    · intro hs
      subst hs
      rfl
  · intro hs
    subst hs
    simp [scaleOutputPhase]

/-! ## Character-list string primitives

Python str.startswith and the `in` substring test, on character lists. -/

/-- Python s.startswith(pat), on character lists: startsWithPat s pat. -/
def startsWithPat : List Char → List Char → Bool
  | _, [] => true
  | [], _ :: _ => false
  | c :: cs, p :: ps => p = c && startsWithPat cs ps

/-- Python `sub in s` substring test, on character lists:
containsSub s sub. -/
def containsSub : List Char → List Char → Bool
  | [], sub => sub.isEmpty
  | s@(_ :: rest), sub => startsWithPat s sub || containsSub rest sub

/-! ## user_length filter mode (filter.py main, user_length branch)

For every trajectory the code walks the messages; for a user-role message
it first tests whether the content contains the sentinel substring
TARGET_PREFIX (ending the accumulation when it does) and otherwise
accumulates the token count of the content.  The source line is

    cur_lengths += count_tokens(msg["content"])

while count_tokens is declared with TWO required parameters
(tokenizer, text); the call supplies only one argument, so in Python it
raises TypeError the first time it is reached.  The call site is
therefore embedded as an erroring computation.  Afterwards the code
computes cur_lengths / (len(messages) // 2); when the floor-halved
message count is zero this division raises ZeroDivisionError - the
source has no guard. -/

/-- The end-of-episode sentinel substring (TARGET_PREFIX in the source). -/
def TARGET_SENTINEL : String :=
  "OBSERVATION:\nThank you for your work on this issue."

/-- count_tokens as declared in the source: it requires both a tokenizer
and the text. -/
def count_tokens (tokenizer : String → Nat) (text : String) : Nat :=
  tokenizer text

/-- The call count_tokens(msg["content"]) as written in the user_length
loop: count_tokens requires two arguments but receives one, so Python
raises TypeError at this call. -/
def count_tokens_misapplied (_content : String) : Except PyError Nat :=
  .error .typeError

/-- The accumulation loop of the user_length branch over the message
list: user-role messages containing the sentinel end the accumulation;
other user-role messages reach the one-argument count_tokens call. -/
def userLengthSum : List Message → Except PyError Nat
  | [] => .ok 0
  | m :: ms =>
    if m.role = "user" then
      if containsSub m.content.data TARGET_SENTINEL.data then .ok 0
      else
        match count_tokens_misapplied m.content with
        | .error e => .error e
        | .ok t =>
          match userLengthSum ms with
          | .error e => .error e
          | .ok rest => .ok (t + rest)
    else userLengthSum ms

/-- Whether the user_length branch flags one trajectory for removal:
the accumulated sum divided (exact rational division, as Python float
division of the integer counts) by len(messages) // 2, compared against
TOOL_CALL_TOKEN_MAX = 600.  A zero denominator raises
ZeroDivisionError. -/
def userLengthFlagged (t : Traj) : Except PyError Bool :=
  match userLengthSum t.messages with
  | .error e => .error e
  | .ok s =>
    let d := t.messages.length / 2
    if d = 0 then .error .zeroDivision
    else .ok (decide ((s : ℚ) / (d : ℚ) > 600))

/-- The shape of trajectory named by claim C2: 9 messages in total, of
which 4 are user messages (none containing the sentinel). -/
def c2ExampleTraj : Traj :=
  { instance_id := "inst_c2",
    messages :=
      [{ role := "system", content := "s" },
       { role := "user", content := "a" },
       { role := "assistant", content := "b" },
       { role := "user", content := "c" },
       { role := "assistant", content := "d" },
       { role := "user", content := "e" },
       { role := "assistant", content := "f" },
       { role := "user", content := "g" },
       { role := "assistant", content := "h" }] }

/-- C2, code bug.  The claim describes the average computation and states
that the 4-user-message, 9-message example trajectory is not flagged.  In
the source, the accumulation line calls the two-parameter function
count_tokens with a single argument, so processing any trajectory with at
least one counted user message - in particular the very trajectory shape
the claim names - raises TypeError instead of computing the average. -/
theorem c2_user_length_type_error :
    userLengthFlagged c2ExampleTraj = .error .typeError := rfl

/-- A trajectory with no messages at all. -/
def zeroMsgTraj : Traj := { instance_id := "empty", messages := [] }

/-- A trajectory with a single (assistant) message. -/
def oneMsgTraj : Traj :=
  { instance_id := "one",
    messages := [{ role := "assistant", content := "hi" }] }

/-- C3, code bug.  The claim states that trajectories with 0 or 1 total
messages are guarded against a degenerate denominator.  The source has no
guard: len(messages) // 2 is 0 and the division raises
ZeroDivisionError, for the empty-message trajectory and for a
one-message trajectory alike. -/
theorem c3_zero_division :
    userLengthFlagged zeroMsgTraj = .error .zeroDivision ∧
    userLengthFlagged oneMsgTraj = .error .zeroDivision := by
  exact ⟨rfl, rfl⟩

/-! ## DiffAnalyzer (filter.py, analyze_diff)

The source iterates over patch_text.splitlines() keeping counters
added, deleted, new_files and a current_file_is_new flag.  Lines are
character lists; the string patterns of the source are the character
lists below. -/

/-- The pattern "diff --git". -/
def diffGitPat : List Char :=
  ['d', 'i', 'f', 'f', ' ', '-', '-', 'g', 'i', 't']

/-- The pattern "new file mode". -/
def newFileModePat : List Char :=
  ['n', 'e', 'w', ' ', 'f', 'i', 'l', 'e', ' ', 'm', 'o', 'd', 'e']

/-- The pattern "+++". -/
def plus3Pat : List Char := ['+', '+', '+']

/-- The pattern "---". -/
def minus3Pat : List Char := ['-', '-', '-']

/-- The pattern "@@". -/
def atAtPat : List Char := ['@', '@']

/-- The pattern "+". -/
def plus1Pat : List Char := ['+']

/-- The pattern "-". -/
def minus1Pat : List Char := ['-']

/-- The loop state of analyze_diff. -/
structure DiffScan where
  added : Nat
  deleted : Nat
  new_files : Nat
  current_file_is_new : Bool
deriving DecidableEq, Repr

/-- The DiffStats result of analyze_diff. -/
structure DiffStats where
  added_lines : Nat
  deleted_lines : Nat
  new_files : Nat
deriving DecidableEq, Repr

/-- One iteration of the analyze_diff loop on one line: reset the
new-file flag on a "diff --git" header, count and set the flag on a
"new file mode" line, skip the metadata lines, then count additions and
deletions. -/
def analyzeStep (st : DiffScan) (line : List Char) : DiffScan :=
  let st1 := if startsWithPat line diffGitPat then
    { st with current_file_is_new := false } else st
  let st2 := if startsWithPat line newFileModePat then
    { st1 with current_file_is_new := true, new_files := st1.new_files + 1 }
    else st1
  if startsWithPat line plus3Pat || startsWithPat line minus3Pat ||
     startsWithPat line diffGitPat || startsWithPat line atAtPat then st2
  else
    let st3 := if startsWithPat line plus1Pat && !startsWithPat line plus3Pat
      then { st2 with added := st2.added + 1 } else st2
    if startsWithPat line minus1Pat && !startsWithPat line minus3Pat
      then { st3 with deleted := st3.deleted + 1 } else st3

/-- Python str.splitlines restricted to the newline separator: split the
character list at every newline character. -/
def splitNl : List Char → List (List Char)
  | [] => [[]]
  | c :: cs =>
    if c = '\n' then [] :: splitNl cs
    else
      match splitNl cs with
      | [] => [[c]]
      | g :: gs => (c :: g) :: gs

/-- Python str.splitlines (for newline-separated text): no entry is
produced for a trailing newline, and the empty text yields no lines. -/
def pySplitlines (cs : List Char) : List (List Char) :=
  let gs := splitNl cs
  if gs.getLast? = some [] then gs.dropLast else gs

/-- analyze_diff of the source: fold the line scan over the split lines
of the patch text, starting from zero counters, and return the three
counters. -/
def analyze_diff (patch_text : List Char) : DiffStats :=
  let fin := (pySplitlines patch_text).foldl analyzeStep
    { added := 0, deleted := 0, new_files := 0, current_file_is_new := false }
  { added_lines := fin.added, deleted_lines := fin.deleted,
    new_files := fin.new_files }

/-! Spec-side line classification, written from the specification text:
"A line is an addition if it starts with + and is not a +++ metadata
line; a deletion if it starts with - and is not a --- metadata line",
and new-file markers are the "new file mode" lines. -/

/-- Modelled from the spec: an added content line. -/
def specIsAddedLine (line : List Char) : Bool :=
  startsWithPat line plus1Pat && !startsWithPat line plus3Pat

/-- Modelled from the spec: a removed content line. -/
def specIsRemovedLine (line : List Char) : Bool :=
  startsWithPat line minus1Pat && !startsWithPat line minus3Pat

/-- Modelled from the spec: a "new file mode" marker line. -/
def specIsNewFileLine (line : List Char) : Bool :=
  startsWithPat line newFileModePat

/-- Modelled from the spec: the number k of added content lines of a
diff text. -/
def specAddedCount (lines : List (List Char)) : Nat :=
  (lines.filter specIsAddedLine).length

/-- Modelled from the spec: the number m of removed content lines. -/
def specRemovedCount (lines : List (List Char)) : Nat :=
  (lines.filter specIsRemovedLine).length

/-- Modelled from the spec: the number j of "new file mode" markers. -/
def specNewFileCount (lines : List (List Char)) : Nat :=
  (lines.filter specIsNewFileLine).length

/-! Helper lemmas about startsWithPat. -/

theorem startsWithPat_head {a : Char} {ps l : List Char}
    (h : startsWithPat l (a :: ps) = true) : ∃ t, l = a :: t := by
  cases l with
  | nil => simp [startsWithPat] at h
  | cons c cs =>
    simp only [startsWithPat, Bool.and_eq_true, decide_eq_true_eq] at h
    exact ⟨cs, by simp [h.1]⟩

theorem startsWithPat_false_of_ne {a b : Char} {ps qs l : List Char}
    (h : startsWithPat l (a :: ps) = true) (hne : b ≠ a) :
    startsWithPat l (b :: qs) = false := by
  obtain ⟨t, rfl⟩ := startsWithPat_head h
  simp [startsWithPat, hne]

theorem plus1_of_plus3 {l : List Char} (h : startsWithPat l plus3Pat = true) :
    startsWithPat l plus1Pat = true := by
  obtain ⟨t, rfl⟩ := @startsWithPat_head '+' ['+', '+'] l h
  simp [startsWithPat, plus1Pat]

theorem minus1_of_minus3 {l : List Char} (h : startsWithPat l minus3Pat = true) :
    startsWithPat l minus1Pat = true := by
  obtain ⟨t, rfl⟩ := @startsWithPat_head '-' ['-', '-'] l h
  simp [startsWithPat, minus1Pat]

theorem plus1_not_minus3 {l : List Char} (h : startsWithPat l plus1Pat = true) :
    startsWithPat l minus3Pat = false :=
  @startsWithPat_false_of_ne '+' '-' [] ['-', '-'] l h (by decide)

theorem plus1_not_diffGit {l : List Char} (h : startsWithPat l plus1Pat = true) :
    startsWithPat l diffGitPat = false :=
  @startsWithPat_false_of_ne '+' 'd' [] ['i', 'f', 'f', ' ', '-', '-', 'g', 'i', 't'] l h (by decide)

theorem plus1_not_atAt {l : List Char} (h : startsWithPat l plus1Pat = true) :
    startsWithPat l atAtPat = false :=
  @startsWithPat_false_of_ne '+' '@' [] ['@'] l h (by decide)

theorem minus1_not_plus3 {l : List Char} (h : startsWithPat l minus1Pat = true) :
    startsWithPat l plus3Pat = false :=
  @startsWithPat_false_of_ne '-' '+' [] ['+', '+'] l h (by decide)

theorem minus1_not_diffGit {l : List Char} (h : startsWithPat l minus1Pat = true) :
    startsWithPat l diffGitPat = false :=
  @startsWithPat_false_of_ne '-' 'd' [] ['i', 'f', 'f', ' ', '-', '-', 'g', 'i', 't'] l h (by decide)

theorem minus1_not_atAt {l : List Char} (h : startsWithPat l minus1Pat = true) :
    startsWithPat l atAtPat = false :=
  @startsWithPat_false_of_ne '-' '@' [] ['@'] l h (by decide)

/-! One-step field lemmas for the analyze_diff loop. -/

theorem analyzeStep_added (st : DiffScan) (l : List Char) :
    (analyzeStep st l).added =
      st.added + (if specIsAddedLine l then 1 else 0) := by
  have e31 := @plus1_of_plus3 l
  have cm3 := @plus1_not_minus3 l
  have cdg := @plus1_not_diffGit l
  have cat := @plus1_not_atAt l
  unfold analyzeStep specIsAddedLine
  cases h3 : startsWithPat l plus3Pat <;>
    cases h1 : startsWithPat l plus1Pat <;>
    cases hm3 : startsWithPat l minus3Pat <;>
    cases hm1 : startsWithPat l minus1Pat <;>
    cases hdg : startsWithPat l diffGitPat <;>
    cases hat : startsWithPat l atAtPat <;>
    cases hnf : startsWithPat l newFileModePat <;>
    simp_all

theorem analyzeStep_deleted (st : DiffScan) (l : List Char) :
    (analyzeStep st l).deleted =
      st.deleted + (if specIsRemovedLine l then 1 else 0) := by
  have e31 := @minus1_of_minus3 l
  have cp3 := @minus1_not_plus3 l
  have cdg := @minus1_not_diffGit l
  have cat := @minus1_not_atAt l
  unfold analyzeStep specIsRemovedLine
  cases h3 : startsWithPat l plus3Pat <;>
    cases h1 : startsWithPat l plus1Pat <;>
    cases hm3 : startsWithPat l minus3Pat <;>
    cases hm1 : startsWithPat l minus1Pat <;>
    cases hdg : startsWithPat l diffGitPat <;>
    cases hat : startsWithPat l atAtPat <;>
    cases hnf : startsWithPat l newFileModePat <;>
    simp_all

theorem analyzeStep_new_files (st : DiffScan) (l : List Char) :
    (analyzeStep st l).new_files =
      st.new_files + (if specIsNewFileLine l then 1 else 0) := by
  unfold analyzeStep specIsNewFileLine
  cases h3 : startsWithPat l plus3Pat <;>
    cases h1 : startsWithPat l plus1Pat <;>
    cases hm3 : startsWithPat l minus3Pat <;>
    cases hm1 : startsWithPat l minus1Pat <;>
    cases hdg : startsWithPat l diffGitPat <;>
    cases hat : startsWithPat l atAtPat <;>
    cases hnf : startsWithPat l newFileModePat <;>
    simp_all

/-! Fold lemmas: each counter of the scan accumulates the corresponding
spec-side line count. -/

theorem foldl_analyzeStep_added (lines : List (List Char)) (st : DiffScan) :
    (lines.foldl analyzeStep st).added = st.added + specAddedCount lines := by
  induction lines generalizing st with
  | nil => simp [specAddedCount]
  | cons l ls ih =>
    rw [List.foldl_cons, ih, analyzeStep_added]
    cases h : specIsAddedLine l <;>
      simp [specAddedCount, List.filter_cons, h] ; omega

theorem foldl_analyzeStep_deleted (lines : List (List Char)) (st : DiffScan) :
    (lines.foldl analyzeStep st).deleted = st.deleted + specRemovedCount lines := by
  induction lines generalizing st with
  | nil => simp [specRemovedCount]
  | cons l ls ih =>
    rw [List.foldl_cons, ih, analyzeStep_deleted]
    cases h : specIsRemovedLine l <;>
      simp [specRemovedCount, List.filter_cons, h] ; omega

theorem foldl_analyzeStep_new_files (lines : List (List Char)) (st : DiffScan) :
    (lines.foldl analyzeStep st).new_files =
      st.new_files + specNewFileCount lines := by
  induction lines generalizing st with
  | nil => simp [specNewFileCount]
  | cons l ls ih =>
    rw [List.foldl_cons, ih, analyzeStep_new_files]
    cases h : specIsNewFileLine l <;>
      simp [specNewFileCount, List.filter_cons, h] ; omega

/-- C6.  analyze_diff returns exactly the spec-side counts: the number k
of added content lines (lines starting with + that are not +++ metadata),
the number m of removed content lines (starting with - and not ---
metadata), and the number j of "new file mode" marker lines, of the
split lines of the patch text; and the empty text yields (0, 0, 0). -/
theorem c6_analyze_diff (patch : List Char) :
    analyze_diff patch =
      { added_lines := specAddedCount (pySplitlines patch),
        deleted_lines := specRemovedCount (pySplitlines patch),
        new_files := specNewFileCount (pySplitlines patch) } ∧
    analyze_diff [] = { added_lines := 0, deleted_lines := 0, new_files := 0 } := by
  constructor
  · unfold analyze_diff
    simp [foldl_analyzeStep_added, foldl_analyzeStep_deleted,
      foldl_analyzeStep_new_files]
  · rfl

/-! ## long_edit filter mode (filter.py main, long_edit branch)

For every folder the code lists its subdirectories and, for every
subdirectory name that is also an instance id of the loaded dataset,
inspects the per-instance prediction artifact <name>/<name>.pred: a
missing file adds the id to the removal set, a file that fails to parse
adds the id, and otherwise the extracted model_patch is analyzed when it
is truthy (a nonempty string) and the id is added when
added_lines + deleted_lines exceeds PATCH_EDIT_MAX = 40.

A folder is modelled as its listing: the subdirectory names paired with
the state of the prediction artifact found under each name.  The removal
set is modelled as the list of ids added (membership is the only
observable used). -/

/-- The constant PATCH_EDIT_MAX of the source. -/
def PATCH_EDIT_MAX : Nat := 40

/-- The state of one per-instance prediction artifact. -/
inductive PredArtifact where
  /-- The .pred file does not exist. -/
  | missing
  /-- The .pred file exists but reading the patch raises
  (unparsable JSON or no model_patch field). -/
  | unparsable
  /-- The .pred file parses and its model_patch field holds this text. -/
  | parsed (model_patch : List Char)
deriving DecidableEq, Repr

/-- A trajectory folder, as its listing: subdirectory names with the
artifact each holds. -/
abbrev FolderListing := List (String × PredArtifact)

/-- Processing of one listed subdirectory name in the long_edit loop. -/
def longEditEntry (dataset_ids : List String) (remove_ids : List String)
    (e : String × PredArtifact) : List String :=
  if e.1 ∈ dataset_ids then
    match e.2 with
    | .missing => e.1 :: remove_ids
    | .unparsable => e.1 :: remove_ids
    | .parsed patch =>
      if patch.isEmpty then remove_ids
      else if (analyze_diff patch).added_lines + (analyze_diff patch).deleted_lines
          > PATCH_EDIT_MAX then e.1 :: remove_ids
      else remove_ids
  else remove_ids

/-- The removal ids accumulated by the long_edit branch over all folders
(each folder processed in listing order). -/
def longEditRemoveIds (folders : List FolderListing)
    (dataset_ids : List String) : List String :=
  folders.foldl (fun acc f => f.foldl (longEditEntry dataset_ids) acc) []

/-- Whether one listed entry causes its id to be added to the removal
set, given that the id is in the dataset. -/
def entryFlags (e : String × PredArtifact) : Prop :=
  e.2 = .missing ∨ e.2 = .unparsable ∨
  ∃ patch, e.2 = .parsed patch ∧ patch ≠ [] ∧
    (analyze_diff patch).added_lines + (analyze_diff patch).deleted_lines >
      PATCH_EDIT_MAX

theorem longEditEntry_mem (dataset_ids acc : List String)
    (e : String × PredArtifact) (inst : String) :
    inst ∈ longEditEntry dataset_ids acc e ↔
      inst ∈ acc ∨ (e.1 = inst ∧ e.1 ∈ dataset_ids ∧ entryFlags e) := by
  unfold longEditEntry entryFlags
  by_cases hd : e.1 ∈ dataset_ids
  · simp only [hd, if_true]
    cases he : e.2 with
    | missing =>
      simp [he]
      all_goals tauto
    | unparsable =>
      simp [he]
      all_goals tauto
    | parsed patch =>
      by_cases hemp : patch.isEmpty
      · have hnil : patch = [] := by simpa [List.isEmpty_iff] using hemp
        simp [hemp, he, hnil]
      · have hnil : patch ≠ [] := by simpa [List.isEmpty_iff] using hemp
        by_cases hbig : (analyze_diff patch).added_lines +
            (analyze_diff patch).deleted_lines > PATCH_EDIT_MAX
        · simp [hemp, hbig, he, hnil]
          all_goals tauto
        · simp [hemp, hbig, he, hnil]
  · simp only [hd, if_false]
    tauto

theorem longEdit_foldl_mem (dataset_ids : List String) (f : FolderListing)
    (acc : List String) (inst : String) :
    inst ∈ f.foldl (longEditEntry dataset_ids) acc ↔
      inst ∈ acc ∨ ∃ e ∈ f, e.1 = inst ∧ e.1 ∈ dataset_ids ∧ entryFlags e := by
  induction f generalizing acc with
  | nil => simp
  | cons e es ih =>
    rw [List.foldl_cons, ih, longEditEntry_mem]
    constructor
    · rintro ((h | h) | ⟨e2, he2, h2⟩)
      · exact Or.inl h
      · exact Or.inr ⟨e, List.mem_cons_self e es, h⟩
      · exact Or.inr ⟨e2, List.mem_cons_of_mem e he2, h2⟩
    · rintro (h | ⟨e2, he2, h2⟩)
      · exact Or.inl (Or.inl h)
      · rcases List.mem_cons.mp he2 with rfl | hmem
        · exact Or.inl (Or.inr h2)
        · exact Or.inr ⟨e2, hmem, h2⟩

/-- C4.  In long_edit mode, an instance id is flagged for removal exactly
when it is an id of the dataset and some folder listing has an entry of
that name whose prediction artifact is missing, or unparsable, or parses
to a nonempty patch with added_lines + deleted_lines > 40.  Consequently:
a listed dataset instance with a missing or unparsable artifact is always
flagged; a listed instance all of whose artifacts parse to patches with
added_lines + deleted_lines ≤ 40 is never flagged; and an instance absent
from every folder listing is never flagged, whatever the dataset holds. -/
theorem c4_long_edit (folders : List FolderListing)
    (dataset_ids : List String) (inst : String) :
    inst ∈ longEditRemoveIds folders dataset_ids ↔
      inst ∈ dataset_ids ∧
        ∃ f ∈ folders, ∃ e ∈ f, e.1 = inst ∧ entryFlags e := by
  unfold longEditRemoveIds
  have main : ∀ (fs : List FolderListing) (acc : List String),
      inst ∈ fs.foldl (fun a f => f.foldl (longEditEntry dataset_ids) a) acc ↔
        inst ∈ acc ∨ (inst ∈ dataset_ids ∧
          ∃ f ∈ fs, ∃ e ∈ f, e.1 = inst ∧ entryFlags e) := by
    intro fs
    induction fs with
    | nil => simp
    | cons f fs ih =>
      intro acc
      rw [List.foldl_cons, ih, longEdit_foldl_mem]
      constructor
      · rintro ((h | ⟨e, he, h1, h2, h3⟩) | ⟨hd, f2, hf2, e, he, h1, h3⟩)
        · exact Or.inl h
        · exact Or.inr ⟨h1 ▸ h2, f, List.mem_cons_self f fs, e, he, h1, h3⟩
        · exact Or.inr ⟨hd, f2, List.mem_cons_of_mem f hf2, e, he, h1, h3⟩
      · rintro (h | ⟨hd, f2, hf2, e, he, h1, h3⟩)
        · exact Or.inl (Or.inl h)
        · rcases List.mem_cons.mp hf2 with rfl | hmem
          · exact Or.inl (Or.inr ⟨e, he, h1, h1 ▸ hd, h3⟩)
          · exact Or.inr ⟨hd, f2, hmem, e, he, h1, h3⟩
  rw [main]
  simp

/-! ## repo scaling strategy (scale.py, scale_repos)

The repository key of a trajectory is computed by the source as

    "_".join(data["instance_id"].split("_"))[:-1]

split on underscore, rejoin on underscore, and drop the final character.
The split and the join are embedded below on character lists; the dict of
repository groups preserves insertion order, and the shuffled visiting
order of the keys is a parameter. -/

/-- Python str.split("_") on a character list (the split always yields at
least one, possibly empty, field). -/
def splitUnd : List Char → List (List Char)
  | [] => [[]]
  | c :: cs =>
    if c = '_' then [] :: splitUnd cs
    else
      match splitUnd cs with
      | [] => [[c]]
      | g :: gs => (c :: g) :: gs

/-- Python "_".join(fields) on character lists. -/
def joinUnd : List (List Char) → List Char
  | [] => []
  | [g] => g
  | g :: gs => g ++ '_' :: joinUnd gs

theorem splitUnd_ne_nil (cs : List Char) : splitUnd cs ≠ [] := by
  cases cs with
  | nil => simp [splitUnd]
  | cons c cs =>
    unfold splitUnd
    by_cases h : c = '_'
    · simp [h]
    · simp only [h, if_false]
      cases hs : splitUnd cs <;> simp

theorem joinUnd_splitUnd (cs : List Char) : joinUnd (splitUnd cs) = cs := by
  induction cs with
  | nil => rfl
  | cons c cs ih =>
    unfold splitUnd
    by_cases h : c = '_'
    · simp only [h, if_true]
      obtain ⟨g, gs, hg⟩ : ∃ g gs, splitUnd cs = g :: gs := by
        cases hs : splitUnd cs with
        | nil => exact absurd hs (splitUnd_ne_nil cs)
        | cons g gs => exact ⟨g, gs, rfl⟩
      rw [hg]
      rw [hg] at ih
      simpa [joinUnd] using ih
    · simp only [h, if_false]
      cases hs : splitUnd cs with
      | nil => exact absurd hs (splitUnd_ne_nil cs)
      | cons g gs =>
        rw [hs] at ih
        cases gs with
        | nil => simpa [joinUnd] using ih
        | cons g2 gs2 => simpa [joinUnd] using ih

/-- The repository key of an instance id, exactly as derived by the
source: split on underscore, join on underscore, drop the final
character. -/
def repoKey (instance_id : String) : List Char :=
  (joinUnd (splitUnd instance_id.data)).dropLast

/-- Insert one trajectory at the end of its repository group, preserving
the insertion order of keys (the behavior of the Python dict). -/
def insertGroup : List (List Char × List Traj) → List Char → Traj →
    List (List Char × List Traj)
  | [], k, d => [(k, [d])]
  | (k2, g) :: rest, k, d =>
    if k2 = k then (k2, g ++ [d]) :: rest
    else (k2, g) :: insertGroup rest k d

/-- The repo_to_data dict of scale_repos: trajectories grouped by
repository key in first-appearance order. -/
def groupByRepo (dataset : List Traj) : List (List Char × List Traj) :=
  dataset.foldl (fun acc d => insertGroup acc (repoKey d.instance_id) d) []

/-- Group lookup; an absent key yields the empty group. -/
def groupLookup (groups : List (List Char × List Traj)) (k : List Char) :
    List Traj :=
  match groups.find? (fun p => p.1 = k) with
  | some p => p.2
  | none => []

/-- The accumulation loop of scale_repos: visit the keys in the given
order and append each visited whole group while the accumulated size is
still below the target, stopping at the first key reached with the
target already met. -/
def addRepos (groups : List (List Char × List Traj)) (number : Nat) :
    List (List Char) → List Traj → List Traj
  | [], acc => acc
  | k :: ks, acc =>
    if acc.length < number then addRepos groups number ks (acc ++ groupLookup groups k)
    else acc

/-- scale_repos of the source, with the shuffled key visiting order as a
parameter. -/
def scale_repos (dataset : List Traj) (order : List (List Char))
    (number : Nat) : List Traj :=
  addRepos (groupByRepo dataset) number order []

theorem groupLookup_insertGroup (acc : List (List Char × List Traj))
    (k2 k : List Char) (d : Traj) :
    groupLookup (insertGroup acc k2 d) k =
      if k2 = k then groupLookup acc k ++ [d] else groupLookup acc k := by
  induction acc with
  | nil =>
    by_cases h : k2 = k <;> simp [insertGroup, groupLookup, List.find?, h]
  | cons p rest ih =>
    obtain ⟨kp, gp⟩ := p
    unfold insertGroup
    by_cases h1 : kp = k2
    · subst h1
      by_cases h2 : kp = k
      · subst h2
        simp [groupLookup, List.find?]
      · simp [groupLookup, List.find?, h2]
    · simp only [h1, if_false]
      by_cases h2 : kp = k
      · subst h2
        have hne : ¬ k2 = kp := fun hc => h1 hc.symm
        simp [groupLookup, List.find?, hne]
      · simp only [groupLookup, List.find?, h2]
        simpa [groupLookup, h2] using ih

theorem groupLookup_groupByRepo (dataset : List Traj) (k : List Char) :
    groupLookup (groupByRepo dataset) k =
      dataset.filter (fun d => repoKey d.instance_id = k) := by
  unfold groupByRepo
  have main : ∀ (ds : List Traj) (acc : List (List Char × List Traj)),
      groupLookup
          (ds.foldl (fun a d => insertGroup a (repoKey d.instance_id) d) acc) k =
        groupLookup acc k ++ ds.filter (fun d => repoKey d.instance_id = k) := by
    intro ds
    induction ds with
    | nil => simp
    | cons d ds ih =>
      intro acc
      rw [List.foldl_cons, ih, groupLookup_insertGroup]
      by_cases h : repoKey d.instance_id = k
      · simp [List.filter_cons, h]
      · simp [List.filter_cons, h]
  rw [main]
  simp [groupLookup, List.find?]

theorem addRepos_spec (groups : List (List Char × List Traj)) (number : Nat)
    (order : List (List Char)) (acc : List Traj) :
    ∃ p ≤ order.length,
      addRepos groups number order acc =
        acc ++ ((order.take p).map (groupLookup groups)).flatten ∧
      (∀ i < p,
        (acc ++ ((order.take i).map (groupLookup groups)).flatten).length <
          number) ∧
      (p < order.length →
        number ≤ (addRepos groups number order acc).length) := by
  induction order generalizing acc with
  | nil => exact ⟨0, by simp [addRepos]⟩
  | cons k ks ih =>
    by_cases h : acc.length < number
    · obtain ⟨p, hp, heq, hlt, hstop⟩ := ih (acc ++ groupLookup groups k)
      refine ⟨p + 1, by simpa using hp, ?_, ?_, ?_⟩
      · rw [show addRepos groups number (k :: ks) acc =
            addRepos groups number ks (acc ++ groupLookup groups k) by
          simp [addRepos, h]]
        rw [heq]
        simp [List.take_succ_cons]
      · intro i hi
        cases i with
        | zero => simpa using h
        | succ j =>
          have hj : j < p := Nat.lt_of_succ_lt_succ hi
          have := hlt j hj
          simpa [List.take_succ_cons, List.append_assoc] using this
      · intro hplt
        rw [show addRepos groups number (k :: ks) acc =
            addRepos groups number ks (acc ++ groupLookup groups k) by
          simp [addRepos, h]]
        exact hstop (Nat.lt_of_succ_lt_succ hplt)
    · refine ⟨0, Nat.zero_le _, ?_, ?_, ?_⟩
      · simp [addRepos, h]
      · intro i hi
        exact absurd hi (Nat.not_lt_zero i)
      · intro _
        rw [show addRepos groups number (k :: ks) acc = acc by
          simp [addRepos, h]]
        exact Nat.le_of_not_lt h

/-- The two-trajectory, one-repository example dataset. -/
def exRepoDs : List Traj :=
  [{ instance_id := "ab1", messages := [] },
   { instance_id := "ab2", messages := [] }]

/-- The single-key visiting order of the example dataset. -/
def exRepoOrder : List (List Char) := [['a', 'b']]

/-- C7.  The repo scaling strategy: (1) the repository key of a
trajectory is its instance_id with the final character dropped (the
split-join on underscore reconstructs the id); (2) the groups partition
the dataset: the group of key k holds exactly the dataset trajectories
whose id derives key k, in dataset order; (3) for every visiting order
and target, the result is the concatenation of the full groups of a
prefix of the visited keys - no repository appears partially - where
every proper prefix is still below the target and, if any key was left
unvisited, the accumulated size has reached or exceeded the target;
(4) the result size can exceed the target: a whole 2-element repository
is appended for target 1. -/
theorem c7_scale_repos (dataset : List Traj) (order : List (List Char))
    (number : Nat) :
    (∀ s : String, repoKey s = s.data.dropLast) ∧
    (∀ k, groupLookup (groupByRepo dataset) k =
      dataset.filter (fun d => repoKey d.instance_id = k)) ∧
    (∃ p ≤ order.length,
      scale_repos dataset order number =
        ((order.take p).map (groupLookup (groupByRepo dataset))).flatten ∧
      (∀ i < p,
        (((order.take i).map (groupLookup (groupByRepo dataset))).flatten).length
          < number) ∧
      (p < order.length →
        number ≤ (scale_repos dataset order number).length)) ∧
    1 < (scale_repos exRepoDs exRepoOrder 1).length := by
  refine ⟨?_, ?_, ?_, ?_⟩
  · intro s
    simp [repoKey, joinUnd_splitUnd]
  · intro k
    exact groupLookup_groupByRepo dataset k
  · obtain ⟨p, hp, heq, hlt, hstop⟩ :=
      addRepos_spec (groupByRepo dataset) number order []
    exact ⟨p, hp, by simpa [scale_repos] using heq,
      fun i hi => by simpa using hlt i hi,
      fun h => by simpa [scale_repos] using hstop h⟩
  · decide

/-! ## tokens scaling strategy (scale.py, scale_tokens)

The truncation collaborator returns (ratio, trajectory) pairs; the code
shuffles them (the pair list parameter below stands for the shuffled
list), clamps the target to the list length, sorts descending by ratio
(Python sorted is stable; embedded as a stable insertion sort with the
relation "left ratio at least right ratio"), logs the ratio range - a
log line that indexes the sorted list and raises IndexError when the
collaborator returned no pairs - and then either takes the top target
entries (when the threshold is absent or 0.0, both falsy in Python) or
keeps the entries with ratio at least the threshold and caps at the
target. -/

/-- The descending-by-ratio comparison of the sort. -/
def ratioGE (a b : ℚ × Traj) : Prop := b.1 ≤ a.1

instance : DecidableRel ratioGE := fun a b => inferInstanceAs (Decidable (b.1 ≤ a.1))

/-- scale_tokens of the source, on the shuffled (ratio, trajectory) pair
list. -/
def scale_tokens (pairs : List (ℚ × Traj)) (number : Nat)
    (threshold : Option ℚ) : Except PyError (List Traj) :=
  let number := min number pairs.length
  let sortedPairs := List.insertionSort ratioGE pairs
  if pairs.isEmpty then .error .indexError
  else
    match threshold with
    | none => .ok ((sortedPairs.map Prod.snd).take number)
    | some t =>
      if t = 0 then .ok ((sortedPairs.map Prod.snd).take number)
      else .ok (((sortedPairs.filter (fun p => decide (t ≤ p.1))).map
        Prod.snd).take number)

/-- C8.  With a supplied threshold t, every output the tokens strategy
produces has size at most the target and contains only trajectories
whose truncation record has ratio at least t (the collaborator ratios
are fractions in [0, 1], hence nonnegative). -/
theorem c8_scale_tokens (pairs : List (ℚ × Traj)) (number : Nat) (t : ℚ)
    (hnn : ∀ r ∈ pairs, 0 ≤ r.1) (out : List Traj)
    (hout : scale_tokens pairs number (some t) = .ok out) :
    out.length ≤ number ∧
    ∀ traj ∈ out, ∃ r, (r, traj) ∈ pairs ∧ t ≤ r := by
  unfold scale_tokens at hout
  by_cases hemp : pairs.isEmpty
  · simp [hemp] at hout
  · simp only [hemp, if_false] at hout
    have hperm := List.perm_insertionSort ratioGE pairs
    by_cases ht : t = 0
    · simp only [ht, if_true] at hout
      injection hout with hout
      subst hout
      constructor
      · exact le_trans (List.length_take_le _ _) (Nat.min_le_left _ _)
      · intro traj htraj
        have h1 := List.mem_of_mem_take htraj
        obtain ⟨⟨r, tr⟩, hp, hp2⟩ := List.mem_map.mp h1
        simp only at hp2
        subst hp2
        refine ⟨r, hperm.mem_iff.mp hp, ?_⟩
        have := hnn _ (hperm.mem_iff.mp hp)
        rw [ht]
        exact this
    · simp only [ht, if_false] at hout
      injection hout with hout
      subst hout
      constructor
      · exact le_trans (List.length_take_le _ _) (Nat.min_le_left _ _)
      · intro traj htraj
        have h1 := List.mem_of_mem_take htraj
        obtain ⟨⟨r, tr⟩, hp, hp2⟩ := List.mem_map.mp h1
        simp only at hp2
        subst hp2
        have hfil := List.mem_filter.mp hp
        exact ⟨r, hperm.mem_iff.mp hfil.1, of_decide_eq_true hfil.2⟩

/-- A second example trajectory. -/
def exTraj2 : Traj := { instance_id := "inst_2", messages := [] }

/-- C8, witness: the theorem applied to a concrete two-record list with
threshold 9/10 and target 1. -/
theorem c8_witness :
    (∀ r ∈ [((1 : ℚ), exTraj), ((1 : ℚ) / 2, exTraj2)], 0 ≤ r.1) ∧
    ([exTraj].length ≤ 1 ∧
      ∀ traj ∈ [exTraj], ∃ r,
        (r, traj) ∈ [((1 : ℚ), exTraj), ((1 : ℚ) / 2, exTraj2)] ∧
          (9 : ℚ) / 10 ≤ r) := by
  have hnn : ∀ r ∈ [((1 : ℚ), exTraj), ((1 : ℚ) / 2, exTraj2)], 0 ≤ r.1 := by
    intro r hr
    rcases List.mem_cons.mp hr with rfl | hr2
    · norm_num
    · rcases List.mem_cons.mp hr2 with rfl | hr3
      · norm_num
      · simp at hr3
  have hsort : List.insertionSort ratioGE [((1 : ℚ), exTraj), ((1 : ℚ) / 2, exTraj2)] =
      [((1 : ℚ), exTraj), ((1 : ℚ) / 2, exTraj2)] := by
    norm_num [List.insertionSort, List.orderedInsert, ratioGE]
  have hout : scale_tokens [((1 : ℚ), exTraj), ((1 : ℚ) / 2, exTraj2)] 1
      (some ((9 : ℚ) / 10)) = .ok [exTraj] := by
    rw [scale_tokens]
    simp only [hsort]
    norm_num [List.filter]
  exact ⟨hnn, c8_scale_tokens [((1 : ℚ), exTraj), ((1 : ℚ) / 2, exTraj2)] 1
    ((9 : ℚ) / 10) hnn [exTraj] hout⟩

/-! ## Target size resolution (scale.py main)

main clamps the numeric target to the corpus size when it exceeds it,
multiplies it by the corpus size when it is a proportion strictly
between 0 and 1, and truncates the result to an integer with int()
(truncation toward zero). -/

/-- Python int() on a rational: truncation toward zero. -/
def pyTrunc (q : ℚ) : ℤ := if q < 0 then -⌊-q⌋ else ⌊q⌋

/-- The target size resolution of scale.py main: clamp to the corpus
size, or interpret as a proportion when strictly between 0 and 1, then
truncate to an integer. -/
def resolveNumber (n : ℚ) (total : Nat) : ℤ :=
  if n > (total : ℚ) then pyTrunc (total : ℚ)
  else if 0 < n ∧ n < 1 then pyTrunc (n * (total : ℚ))
  else pyTrunc n

/-- C9.  The numeric target n is interpreted as an absolute count when
n ≥ 1, clamped to the corpus size; when 0 < n < 1 it is interpreted as
a proportion: multiplied by the corpus size and truncated to an
integer; and in particular n = 1/4 against a corpus of 400 trajectories
resolves to exactly 100. -/
theorem c9_resolve_number (n : ℚ) (total : Nat) :
    (1 ≤ n → resolveNumber n total = min ⌊n⌋ (total : ℤ)) ∧
    (0 < n → n < 1 → resolveNumber n total = ⌊n * (total : ℚ)⌋) ∧
    resolveNumber ((1 : ℚ) / 4) 400 = 100 := by
  refine ⟨?_, ?_, ?_⟩
  · intro h1
    unfold resolveNumber
    by_cases hgt : n > (total : ℚ)
    · simp only [hgt, if_true]
      have h0 : ¬ ((total : ℚ) < 0) := not_lt.mpr (by positivity)
      have hfloor : pyTrunc (total : ℚ) = (total : ℤ) := by
        rw [pyTrunc, if_neg h0, Int.floor_natCast]
      rw [hfloor]
      have : (total : ℤ) ≤ ⌊n⌋ := Int.le_floor.mpr (le_of_lt hgt)
      omega
    · have hle : n ≤ (total : ℚ) := not_lt.mp hgt
      have hn1 : ¬ (0 < n ∧ n < 1) := fun hc => absurd h1 (not_le.mpr hc.2)
      simp only [hgt, if_false, hn1]
      have hnneg : ¬ (n < 0) := not_lt.mpr (le_trans zero_le_one h1)
      have hfl : ⌊n⌋ ≤ (total : ℤ) := by
        have := Int.floor_le_floor hle
        simpa [Int.floor_natCast] using this
      rw [pyTrunc, if_neg hnneg]
      omega
  · intro h0 h1
    unfold resolveNumber
    by_cases hgt : n > (total : ℚ)
    · have htot : total = 0 := by
        by_contra hc
        have h1t : (1 : ℚ) ≤ (total : ℚ) := by
          exact_mod_cast Nat.one_le_iff_ne_zero.mpr hc
        exact absurd (lt_trans hgt h1) (not_lt.mpr h1t)
      subst htot
      simp only [hgt, if_true]
      norm_num [pyTrunc]
    · have hprop : 0 < n ∧ n < 1 := ⟨h0, h1⟩
      rw [if_neg hgt, if_pos hprop]
      have hnneg : ¬ (n * (total : ℚ) < 0) :=
        not_lt.mpr (mul_nonneg (le_of_lt h0) (by positivity))
      rw [pyTrunc, if_neg hnneg]
  · norm_num [resolveNumber, pyTrunc]

/-- C9, witness: the theorem applied at n = 5 (absolute) and n = 1/4
(proportion) against a corpus of 400. -/
theorem c9_witness :
    resolveNumber (5 : ℚ) 400 = min ⌊(5 : ℚ)⌋ ((400 : Nat) : ℤ) ∧
    resolveNumber ((1 : ℚ) / 4) 400 = ⌊(1 : ℚ) / 4 * ((400 : Nat) : ℚ)⌋ :=
  ⟨(c9_resolve_number 5 400).1 (by norm_num),
   (c9_resolve_number ((1 : ℚ) / 4) 400).2.1 (by norm_num) (by norm_num)⟩

/-! ## Concrete instantiations of the universally quantified theorems -/

/-- C1, witness: the amended theorem instantiated at the eval index 3. -/
theorem c1_witness :
    run_pipeline 3 = concreteStages.map (fun p => (p.1, decide (p.2 < 3))) :=
  c1_amended.1 3

/-- C4, witness: the characterization instantiated at a one-folder
listing holding a missing artifact for a dataset instance. -/
theorem c4_witness :
    "i1" ∈ longEditRemoveIds [[("i1", PredArtifact.missing)]] ["i1"] ↔
      "i1" ∈ ["i1"] ∧
        ∃ f ∈ [[("i1", PredArtifact.missing)]], ∃ e ∈ f,
          e.1 = "i1" ∧ entryFlags e :=
  c4_long_edit [[("i1", PredArtifact.missing)]] ["i1"] "i1"

/-- C6, witness: the count theorem instantiated at the two-line patch
"+a" followed by "-b". -/
theorem c6_witness :
    analyze_diff ['+', 'a', '\n', '-', 'b'] =
      { added_lines := specAddedCount (pySplitlines ['+', 'a', '\n', '-', 'b']),
        deleted_lines := specRemovedCount (pySplitlines ['+', 'a', '\n', '-', 'b']),
        new_files := specNewFileCount (pySplitlines ['+', 'a', '\n', '-', 'b']) } ∧
    analyze_diff [] = { added_lines := 0, deleted_lines := 0, new_files := 0 } :=
  c6_analyze_diff ['+', 'a', '\n', '-', 'b']

/-- C7, witness: the repo-scaling theorem instantiated at the
two-trajectory, one-repository example with target 1. -/
theorem c7_witness :
    (∀ s : String, repoKey s = s.data.dropLast) ∧
    (∀ k, groupLookup (groupByRepo exRepoDs) k =
      exRepoDs.filter (fun d => repoKey d.instance_id = k)) ∧
    (∃ p ≤ exRepoOrder.length,
      scale_repos exRepoDs exRepoOrder 1 =
        ((exRepoOrder.take p).map (groupLookup (groupByRepo exRepoDs))).flatten ∧
      (∀ i < p,
        (((exRepoOrder.take i).map
          (groupLookup (groupByRepo exRepoDs))).flatten).length < 1) ∧
      (p < exRepoOrder.length →
        1 ≤ (scale_repos exRepoDs exRepoOrder 1).length)) ∧
    1 < (scale_repos exRepoDs exRepoOrder 1).length :=
  c7_scale_repos exRepoDs exRepoOrder 1

/-- C10, witness: the skip characterization instantiated at the empty
selected result with an existing destination. -/
theorem c10_witness :
    (scaleOutputPhase [] true = .ok .skippedEmpty ↔ ([] : List Traj) = []) ∧
    (([] : List Traj) = [] →
      scaleOutputPhase [] true ≠ .error .fileExists) :=
  c10_empty_scale_skips_output [] true

end Sera
